import Mathlib

/-!
Verification development for the campaign metrics dashboard
(`campaign_local.py`).  The pipeline is embedded shallowly:

* dataframe cells are `Option ℚ` (`none` models a pandas null/NaN cell;
  Python floats are modelled as exact rationals — no claim depends on
  binary floating-point rounding),
* dataframe column access is guarded by presence flags: accessing an
  absent column produces an `Except.error`, modelling pandas `KeyError`,
* the special pandas float values produced by vectorised division
  (`inf`, `-inf`, `nan`) are modelled by `PdFloat`,
* the regex-based filter parser is embedded as a deterministic
  character-list parser equivalent to
  `^\s*(>=|<=|>|<|==|=)\s*(\d+(\.\d+)?)\s*$` (ASCII whitespace/digits;
  the claims only concern ASCII inputs),
* `st.warning` messages are collected in a warning list; `st.error`
  aborts via the top-level `Except` handler.  Warning text keeps the
  informative part of the Python message (emoji and quote characters are
  elided; the claims only require that the column name appears).
-/

namespace CampaignDash

/-- pandas float values: a finite rational, `inf`, `-inf`, or `NaN`. -/
inductive PdFloat where
  | val : ℚ → PdFloat
  | posInf : PdFloat
  | negInf : PdFloat
  | nan : PdFloat
deriving DecidableEq

/-- Vectorised pandas division of two finite columns: `x/0` is `inf`
(`-inf` for negative `x`) and `0/0` is `NaN`. -/
def pdDiv (a b : ℚ) : PdFloat :=
  if b = 0 then
    (if 0 < a then PdFloat.posInf else if a < 0 then PdFloat.negInf else PdFloat.nan)
  else PdFloat.val (a / b)

/-- Pandas `.replace([inf, -inf], 0)` — note that `NaN` is left
untouched. -/
def replaceInf : PdFloat → PdFloat
  | PdFloat.posInf => PdFloat.val 0
  | PdFloat.negInf => PdFloat.val 0
  | x => x

/-- Multiplication of a pandas float by the positive constant `100`. -/
def pdMul100 : PdFloat → PdFloat
  | PdFloat.val a => PdFloat.val (a * 100)
  | PdFloat.posInf => PdFloat.posInf
  | PdFloat.negInf => PdFloat.negInf
  | PdFloat.nan => PdFloat.nan

/-- The `CTR` column of line 48:
`(clicks / views).replace([inf, -inf], 0) * 100`. -/
def ctrOf (clicks views : ℚ) : PdFloat :=
  pdMul100 (replaceInf (pdDiv clicks views))

/-- Pandas `Series.replace(0, 1)` applied to a single finite cell. -/
def qRepl (x : ℚ) : ℚ := if x = 0 then 1 else x

/-! ### Option (nullable cell) arithmetic -/

/-- Addition with null propagation (`x + NaN = NaN`). -/
def oadd : Option ℚ → Option ℚ → Option ℚ
  | some a, some b => some (a + b)
  | _, _ => none

/-- Multiplication with null propagation. -/
def omul : Option ℚ → Option ℚ → Option ℚ
  | some a, some b => some (a * b)
  | _, _ => none

/-- Division with null propagation.  Every use in the pipeline is guarded
by a non-zero test on the denominator, so the `x/0` case never arises. -/
def odiv : Option ℚ → Option ℚ → Option ℚ
  | some a, some b => some (a / b)
  | _, _ => none

/-- Python evaluation of `cell > 0` on a possibly-NaN cell
(`NaN > 0` is `False`). -/
def ogt0 : Option ℚ → Bool
  | some a => decide (0 < a)
  | none => false

/-! ### Data model -/

/-- A raw row of the uploaded file.  `sku` is the required `Sku Id`
column (a string, per the data model); the numeric cells are nullable.
`addspend` / `roi` / `date` hold the cell values of the optional
`ADDSPEND` / `ROI` / `Date` columns; whether those columns exist at all
is tracked separately by the `Input` flags. -/
structure RawRow where
  sku : String
  views : Option ℚ
  clicks : Option ℚ
  direct : Option ℚ
  indirect : Option ℚ
  revenue : Option ℚ
  addspend : Option ℚ
  roi : Option ℚ
  date : Option String
deriving DecidableEq

/-- A row after Step 4 (row-level derivation): the raw cells plus the
`Total Units Sold` and `Direct Revenue` columns. -/
structure DRow where
  sku : String
  views : Option ℚ
  clicks : Option ℚ
  direct : Option ℚ
  indirect : Option ℚ
  revenue : Option ℚ
  addspend : Option ℚ
  tus : Option ℚ
  directRev : Option ℚ
  date : Option String
deriving DecidableEq

/-- An aggregated row (one per distinct `Sku Id`) with the Step 5 sums
and the derived group-level metrics of lines 47-55. -/
structure AggRow where
  sku : String
  addspend : ℚ
  views : ℚ
  clicks : ℚ
  direct : ℚ
  indirect : ℚ
  revenue : ℚ
  directRev : ℚ
  tus : ℚ
  ctr : PdFloat
  convRate : ℚ
  crda : ℚ
  roiDirect : ℚ
deriving DecidableEq

/-- The uploaded file: readability, column presence, and the rows. -/
structure Input where
  fileReadable : Bool
  hasSku : Bool
  hasViews : Bool
  hasClicks : Bool
  hasDirect : Bool
  hasIndirect : Bool
  hasRevenue : Bool
  hasAddspend : Bool
  hasRoi : Bool
  hasDate : Bool
  rows : List RawRow
deriving DecidableEq

/-! ### Error-aware map (pandas `df.apply(..., axis=1)`)

`df.apply` evaluates the lambda row by row and the first raised
exception aborts the whole call; on an empty frame the lambda is never
evaluated. -/

/-- Map an `Except`-valued function over a list, aborting at the first
error. -/
def exceptMap {α β : Type} (f : α → Except String β) : List α → Except String (List β)
  | [] => Except.ok []
  | a :: as =>
    match f a with
    | Except.error e => Except.error e
    | Except.ok b =>
      match exceptMap f as with
      | Except.error e => Except.error e
      | Except.ok bs => Except.ok (b :: bs)

/-! ### Step 2: read the file -/

/-- Reading the file (`pd.read_csv` / `pd.read_excel`): raises when the
file is unreadable. -/
def readStep (fileReadable : Bool) : Except String Unit :=
  if fileReadable then Except.ok () else Except.error "unreadable file"

/-! ### Step 3: ADDSPEND check -/

/-- Lines 23-27, one row: `Total Revenue (Rs.)/ROI` if `pd.notnull(ROI)`
and `ROI != 0`, else `0`.  `row["ROI"]` raises `KeyError` when the `ROI`
column is absent; `row["Total Revenue (Rs.)"]` is only evaluated when the
condition holds. -/
def step3Row (hasRoi hasRevenue : Bool) (r : RawRow) : Except String RawRow :=
  if hasRoi then
    match r.roi with
    | some v =>
      if v ≠ 0 then
        (if hasRevenue then Except.ok { r with addspend := odiv r.revenue (some v) }
         else Except.error "KeyError: Total Revenue (Rs.)")
      else Except.ok { r with addspend := some 0 }
    | none => Except.ok { r with addspend := some 0 }
  else Except.error "KeyError: ROI"

/-- Lines 21-27: when the `ADDSPEND` column is absent, derive it row by
row; otherwise keep the column as uploaded. -/
def step3 (hasAddspend hasRoi hasRevenue : Bool) (rows : List RawRow) :
    Except String (List RawRow) :=
  if hasAddspend then Except.ok rows else exceptMap (step3Row hasRoi hasRevenue) rows

/-! ### Step 4: row-level Direct Revenue -/

/-- Build the `DRow` for given `Total Units Sold` / `Direct Revenue`
cells. -/
def mkDRow (r : RawRow) (tus directRev : Option ℚ) : DRow :=
  { sku := r.sku, views := r.views, clicks := r.clicks, direct := r.direct,
    indirect := r.indirect, revenue := r.revenue, addspend := r.addspend,
    tus := tus, directRev := directRev, date := r.date }

/-- Lines 30-34, one row: `Total Units Sold = Direct + Indirect` and
`Direct Revenue = (Direct/TUS) * Revenue if TUS > 0 else 0`.
`row["Total Revenue (Rs.)"]` is only evaluated when `TUS > 0`. -/
def step4Row (hasRevenue : Bool) (r : RawRow) : Except String DRow :=
  let tus := oadd r.direct r.indirect
  if ogt0 tus then
    (if hasRevenue then Except.ok (mkDRow r tus (omul (odiv r.direct tus) r.revenue))
     else Except.error "KeyError: Total Revenue (Rs.)")
  else Except.ok (mkDRow r tus (some 0))

/-- Lines 30-34: the column selections
`df["Direct Units Sold"] + df["Indirect Units Sold"]` raise `KeyError`
up front when either column is absent (independently of the rows). -/
def step4 (hasDirect hasIndirect hasRevenue : Bool) (rows : List RawRow) :
    Except String (List DRow) :=
  if hasDirect && hasIndirect then exceptMap (step4Row hasRevenue) rows
  else Except.error "KeyError: units column"

/-- The pure Step 4 row derivation (the path taken when all required
columns are present).  Used to state per-row properties. -/
def row4p (r : RawRow) : DRow :=
  let tus := oadd r.direct r.indirect
  mkDRow r tus (if ogt0 tus then omul (odiv r.direct tus) r.revenue else some 0)

/-! ### Step 5: grouped aggregation -/

/-- The rows of one `groupby("Sku Id")` group. -/
def grp (rows : List DRow) (k : String) : List DRow :=
  rows.filter (fun r => r.sku == k)

/-- A pandas `"sum"` aggregation of one nullable column: null cells are
skipped, i.e. counted as `0` (`skipna` default, `min_count = 0`). -/
def sumCol (rows : List DRow) (f : DRow → Option ℚ) : ℚ :=
  (rows.map (fun r => (f r).getD 0)).sum

/-- The distinct `Sku Id` keys.  pandas sorts group keys; no claim
depends on group order (the spec leaves it unspecified), so first-seen
order is used. -/
def skuKeys (rows : List DRow) : List String :=
  (rows.map (fun r => r.sku)).dedup

/-- The aggregated row of one group: the Step 5 sums followed by the
derived columns of lines 47-55. -/
def aggKey (rows : List DRow) (k : String) : AggRow :=
  let g := grp rows k
  let sAdd := sumCol g (fun r => r.addspend)
  let sV := sumCol g (fun r => r.views)
  let sC := sumCol g (fun r => r.clicks)
  let sD := sumCol g (fun r => r.direct)
  let sI := sumCol g (fun r => r.indirect)
  let sR := sumCol g (fun r => r.revenue)
  let sDR := sumCol g (fun r => r.directRev)
  { sku := k, addspend := sAdd, views := sV, clicks := sC, direct := sD,
    indirect := sI, revenue := sR, directRev := sDR,
    tus := sD + sI,
    ctr := ctrOf sC sV,
    convRate := (sD + sI) / qRepl sC,
    crda := sD / qRepl (sC - sI),
    roiDirect := if 0 < sAdd then sDR / sAdd else 0 }

/-- Lines 37-55: group by `Sku Id`, sum, and derive the group metrics. -/
def aggregate (rows : List DRow) : List AggRow :=
  (skuKeys rows).map (aggKey rows)

/-- Line 37-45 column requirements: `groupby("Sku Id")` and the `agg`
dict raise `KeyError` when `Sku Id`, `Views`, `Clicks` or
`Total Revenue (Rs.)` is absent (the units columns were already required
by Step 4). -/
def step5 (hasSku hasViews hasClicks hasRevenue : Bool) (rows : List DRow) :
    Except String (List AggRow) :=
  if hasSku && hasViews && hasClicks && hasRevenue then Except.ok (aggregate rows)
  else Except.error "KeyError: aggregation column"

/-- Steps 2-5 chained, returning the derived rows (still needed by the
date filter) and the aggregated rows. -/
def pipelineAgg (inp : Input) : Except String (List DRow × List AggRow) :=
  match readStep inp.fileReadable with
  | Except.error e => Except.error e
  | Except.ok _ =>
    match step3 inp.hasAddspend inp.hasRoi inp.hasRevenue inp.rows with
    | Except.error e => Except.error e
    | Except.ok rows3 =>
      match step4 inp.hasDirect inp.hasIndirect inp.hasRevenue rows3 with
      | Except.error e => Except.error e
      | Except.ok drows =>
        match step5 inp.hasSku inp.hasViews inp.hasClicks inp.hasRevenue drows with
        | Except.error e => Except.error e
        | Except.ok agg => Except.ok (drows, agg)

/-- The aggregated table alone (Step 5 output). -/
def pipelineAggOnly (inp : Input) : Except String (List AggRow) :=
  match pipelineAgg inp with
  | Except.error e => Except.error e
  | Except.ok p => Except.ok p.2

/-! ### The condition parser (line 78 regex) -/

/-- The comparison operators of the regex alternation
`>=|<=|>|<|==|=`. -/
inductive CmpOp where
  | gt : CmpOp
  | ge : CmpOp
  | lt : CmpOp
  | le : CmpOp
  | eqq : CmpOp
  | eqa : CmpOp
deriving DecidableEq

/-- Python `\s` on the inputs of interest (ASCII whitespace). -/
def isSpaceCh (c : Char) : Bool :=
  (c == ' ') || (c == '\t') || (c == '\n') || (c == '\r') || (c == '\x0b') || (c == '\x0c')

/-- The operator token: two-character alternatives are listed before
their one-character prefixes, exactly as in the regex alternation. -/
def parseOp : List Char → Option (CmpOp × List Char)
  | [] => none
  | [c1] =>
    if c1 = '>' then some (CmpOp.gt, [])
    else if c1 = '<' then some (CmpOp.lt, [])
    else if c1 = '=' then some (CmpOp.eqa, [])
    else none
  | c1 :: c2 :: rest2 =>
    if c1 = '>' ∧ c2 = '=' then some (CmpOp.ge, rest2)
    else if c1 = '<' ∧ c2 = '=' then some (CmpOp.le, rest2)
    else if c1 = '=' ∧ c2 = '=' then some (CmpOp.eqq, rest2)
    else if c1 = '>' then some (CmpOp.gt, c2 :: rest2)
    else if c1 = '<' then some (CmpOp.lt, c2 :: rest2)
    else if c1 = '=' then some (CmpOp.eqa, c2 :: rest2)
    else none

/-- Numeric value of a digit string. -/
def digitsVal (l : List Char) : ℕ :=
  l.foldl (fun a c => a * 10 + (c.toNat - '0'.toNat)) 0

/-- After the integer digit run of value `dv`: the optional fractional
part `(\.\d+)?` of the number token. -/
def parseNumTail (ds : List Char) : List Char → Option (ℚ × List Char)
  | [] => some ((digitsVal ds : ℚ), [])
  | c :: r2 =>
    if c = '.' then
      (if (r2.takeWhile Char.isDigit).isEmpty then none
       else some ((digitsVal ds : ℚ) +
          (digitsVal (r2.takeWhile Char.isDigit) : ℚ) /
            (10 : ℚ) ^ (r2.takeWhile Char.isDigit).length,
          r2.dropWhile Char.isDigit))
    else some ((digitsVal ds : ℚ), c :: r2)

/-- The number token `\d+(\.\d+)?` with its exact rational value. -/
def parseNum (l : List Char) : Option (ℚ × List Char) :=
  if (l.takeWhile Char.isDigit).isEmpty then none
  else parseNumTail (l.takeWhile Char.isDigit) (l.dropWhile Char.isDigit)

/-- After the number token: `\s*$` must close the input. -/
def parseCondNum (op : CmpOp) : Option (ℚ × List Char) → Option (CmpOp × ℚ)
  | none => none
  | some (v, rest) =>
    if (rest.dropWhile isSpaceCh).isEmpty then some (op, v) else none

/-- After the operator token: optional whitespace, then the number. -/
def parseCondOp : Option (CmpOp × List Char) → Option (CmpOp × ℚ)
  | none => none
  | some (op, r) => parseCondNum op (parseNum (r.dropWhile isSpaceCh))

/-- The regex match
`re.match(r"^\s*(>=|<=|>|<|==|=)\s*(\d+(\.\d+)?)\s*$", condition)`:
the operator and the threshold value, or `none` for malformed input. -/
def parseCond (l : List Char) : Option (CmpOp × ℚ) :=
  parseCondOp (parseOp (l.dropWhile isSpaceCh))

/-- The grammar of the claim/spec: optional whitespace, one operator
token, optional whitespace, a non-negative decimal number (a digit run,
or two digit runs separated by a single dot), optional whitespace. -/
def opStrings : List (List Char) :=
  [['>', '='], ['<', '='], ['=', '='], ['>'], ['<'], ['=']]

/-- The number-token shape of the grammar. -/
def numToken (l : List Char) : Prop :=
  (l ≠ [] ∧ ∀ c ∈ l, Char.isDigit c) ∨
  (∃ a b, a ≠ [] ∧ b ≠ [] ∧ (∀ c ∈ a, Char.isDigit c) ∧ (∀ c ∈ b, Char.isDigit c) ∧
    l = a ++ '.' :: b)

/-- A string matches the claimed filter grammar. -/
def condGrammar (l : List Char) : Prop :=
  ∃ w1 op w2 n w3,
    (∀ c ∈ w1, isSpaceCh c) ∧ op ∈ opStrings ∧ (∀ c ∈ w2, isSpaceCh c) ∧
    numToken n ∧ (∀ c ∈ w3, isSpaceCh c) ∧ l = w1 ++ op ++ w2 ++ n ++ w3

/-! ### Step 7: filters -/

/-- A filterable column: its display name (used in the warning message)
and its cell in an aggregated row. -/
structure Column where
  name : String
  get : AggRow → PdFloat

def colClicks : Column := { name := "Clicks", get := fun r => PdFloat.val r.clicks }

def colCtr : Column := { name := "CTR", get := fun r => r.ctr }

def colCr : Column :=
  { name := "Conversion Rate Direct Adjusted", get := fun r => PdFloat.val r.crda }

def colSpend : Column := { name := "ADDSPEND", get := fun r => PdFloat.val r.addspend }

def colRev : Column :=
  { name := "Total Revenue (Rs.)", get := fun r => PdFloat.val r.revenue }

/-- Comparison semantics of `df.query` on a pandas float cell: comparisons
with `NaN` are `False`; `inf` exceeds every threshold. -/
def evalCmp (op : CmpOp) (x : PdFloat) (t : ℚ) : Bool :=
  match x with
  | PdFloat.val a =>
    match op with
    | CmpOp.gt => decide (t < a)
    | CmpOp.ge => decide (t ≤ a)
    | CmpOp.lt => decide (a < t)
    | CmpOp.le => decide (a ≤ t)
    | CmpOp.eqq => decide (a = t)
    | CmpOp.eqa => decide (a = t)
  | PdFloat.posInf =>
    match op with
    | CmpOp.gt => true
    | CmpOp.ge => true
    | _ => false
  | PdFloat.negInf =>
    match op with
    | CmpOp.lt => true
    | CmpOp.le => true
    | _ => false
  | PdFloat.nan => false

/-- The line 83 warning text (emoji and quote characters elided). -/
def invalidFilterMsg (column : String) : String :=
  "Invalid filter for " ++ column ++ ". Use like > 100"

/-- A single `=` parses, but the generated pandas expression
`` `column` = value `` is an assignment, which `df.query` cannot
evaluate as a boolean mask: pandas raises, and the exception propagates
to the top-level handler. -/
def assignErrMsg (column : String) : String :=
  "query: cannot filter " ++ column ++ " with assignment"

/-- The action of `apply_condition` on the parse result. -/
def applyCondParsed (df : List AggRow) (col : Column) :
    Option (CmpOp × ℚ) → Except String (List AggRow × List String)
  | some (op, t) =>
    if op = CmpOp.eqa then Except.error (assignErrMsg col.name)
    else Except.ok (df.filter (fun r => evalCmp op (col.get r) t), [])
  | none => Except.ok (df, [invalidFilterMsg col.name])

/-- Lines 77-84 `apply_condition`: parse the condition; on success run
the query, on failure warn (naming the column) and return the table
unchanged. -/
def applyCondition (df : List AggRow) (col : Column) (cond : String) :
    Except String (List AggRow × List String) :=
  applyCondParsed df col (parseCond cond.data)

/-- Guard `if filter_x:` — the condition is only applied when the text input
is non-blank. -/
def condStep (df : List AggRow) (col : Column) (cond : String) :
    Except String (List AggRow × List String) :=
  if cond = "" then Except.ok (df, []) else applyCondition df col cond

/-- Line 91: the in-place `*= 100` on the
`Conversion Rate Direct Adjusted` column. -/
def scaleCr (r : AggRow) : AggRow := { r with crda := r.crda * 100 }

/-- Pandas `df["Date"].astype(str)`: a null date cell prints as
`"nan"`. -/
def dateToStr : Option String → String
  | some s => s
  | none => "nan"

/-- Lines 101-102: the `Sku Id`s appearing on the selected date. -/
def skusOnDate (raw : List DRow) (d : String) : List String :=
  ((raw.filter (fun r => dateToStr r.date == d)).map (fun r => r.sku)).dedup

/-- The user controls of Step 6: the five free-text condition inputs,
the `Sku Id` multi-select, and the date selection (`none` = "All"). -/
structure Controls where
  fClicks : String
  fCtr : String
  fCr : String
  fSpend : String
  fRev : String
  selSkus : List String
  selDate : Option String
deriving DecidableEq

/-- Lines 98-99: the `Sku Id` multi-select (inactive when empty). -/
def applySku (c : Controls) (d : List AggRow) : List AggRow :=
  if c.selSkus.isEmpty then d
  else d.filter (fun r => c.selSkus.contains r.sku)

/-- Lines 100-103: the date filter, by membership of the row's `Sku Id`
among the skus appearing on the selected date in the raw rows. -/
def applySkuDate (raw : List DRow) (c : Controls) (d : List AggRow) :
    List AggRow :=
  match c.selDate with
  | none => applySku c d
  | some dt => (applySku c d).filter (fun r => (skusOnDate raw dt).contains r.sku)

/-- Lines 75-103 (Step 7): the five threshold conditions in program
order — with the in-place `*= 100` on the conversion-rate column before
its condition — then the `Sku Id` multi-select and the date filter. -/
def applyFilters (raw : List DRow) (agg : List AggRow) (c : Controls) :
    Except String (List AggRow × List String) :=
  match condStep agg colClicks c.fClicks with
  | Except.error e => Except.error e
  | Except.ok (d1, w1) =>
    match condStep d1 colCtr c.fCtr with
    | Except.error e => Except.error e
    | Except.ok (d2, w2) =>
      match condStep (if c.fCr = "" then d2 else d2.map scaleCr) colCr c.fCr with
      | Except.error e => Except.error e
      | Except.ok (d3, w3) =>
        match condStep d3 colSpend c.fSpend with
        | Except.error e => Except.error e
        | Except.ok (d4, w4) =>
          match condStep d4 colRev c.fRev with
          | Except.error e => Except.error e
          | Except.ok (d5, w5) =>
            Except.ok (applySkuDate raw c d5, w1 ++ w2 ++ w3 ++ w4 ++ w5)

/-- The condition predicate on the parse result. -/
def condPredParsed (col : Column) : Option (CmpOp × ℚ) → AggRow → Bool
  | some (op, t), r => evalCmp op (col.get r) t
  | none, _ => true

/-- The condition predicate on a single row, as the pipeline evaluates
it: a blank or malformed condition passes every row (fail-open). -/
def condPred (col : Column) (cond : String) (r : AggRow) : Bool :=
  condPredParsed col (parseCond cond.data) r

/-- The row transformation the filter stage applies to every surviving
row: the in-place `*= 100` when the conversion-rate condition is
active. -/
def scaleIf (c : Controls) (r : AggRow) : AggRow :=
  if c.fCr = "" then r else scaleCr r

/-- The conjunction of every active condition, evaluated on the
(possibly scaled) row. -/
def pipePred (raw : List DRow) (c : Controls) (r : AggRow) : Bool :=
  condPred colClicks c.fClicks r && condPred colCtr c.fCtr r &&
  condPred colCr c.fCr r && condPred colSpend c.fSpend r &&
  condPred colRev c.fRev r &&
  (c.selSkus.isEmpty || c.selSkus.contains r.sku) &&
  (match c.selDate with
   | none => true
   | some dt => (skusOnDate raw dt).contains r.sku)

/-- No control is active. -/
def noFilters (c : Controls) : Prop :=
  c.fClicks = "" ∧ c.fCtr = "" ∧ c.fCr = "" ∧ c.fSpend = "" ∧ c.fRev = "" ∧
  c.selSkus = [] ∧ c.selDate = none

/-! ### Steps 8-12: KPI cards, display formatting, table, charts -/

/-- Rounding `Series.round(2)` (pandas rounds half to even; the half-way case is
irrelevant to every claim). -/
def round2 (x : ℚ) : ℚ := (round (x * 100) : ℤ) / 100

/-- A table row after the Step 9 percentage formatting: the conversion
rate per SKU is scaled by 100 and rounded, the adjusted conversion rate
is rounded without scaling (line 122). -/
structure DisplayRow where
  sku : String
  addspend : ℚ
  ctr : PdFloat
  convRatePct : ℚ
  direct : ℚ
  views : ℚ
  clicks : ℚ
  indirect : ℚ
  revenue : ℚ
  directRev : ℚ
  roiDirect : ℚ
  crdaDisp : ℚ
deriving DecidableEq

def displayRow (a : AggRow) : DisplayRow :=
  { sku := a.sku, addspend := a.addspend, ctr := a.ctr,
    convRatePct := round2 (a.convRate * 100), direct := a.direct,
    views := a.views, clicks := a.clicks, indirect := a.indirect,
    revenue := a.revenue, directRev := a.directRev, roiDirect := a.roiDirect,
    crdaDisp := round2 a.crda }

/-- Sum of one numeric column of the aggregated table. -/
def aggSum (l : List AggRow) (f : AggRow → ℚ) : ℚ := (l.map f).sum

/-- Descending insertion by a key (pandas `sort_values(ascending=False)`;
its quicksort is unstable, and no claim depends on the order of ties). -/
def insertDesc (key : AggRow → ℚ) (a : AggRow) : List AggRow → List AggRow
  | [] => [a]
  | b :: bs => if key b < key a then a :: b :: bs else b :: insertDesc key a bs

def sortDesc (key : AggRow → ℚ) : List AggRow → List AggRow
  | [] => []
  | a :: as => insertDesc key a (sortDesc key as)

/-- Everything the dashboard renders below the sidebar: warnings, the
four KPI values (lines 106-118), the formatted table (Steps 9-10), and
the two top-10 charts (Steps 11-12, rows with zero
`Direct Units Sold` excluded). -/
structure Output where
  warnings : List String
  totViews : ℚ
  totClicks : ℚ
  ctrOverall : ℚ
  crDirectAdjKpi : ℚ
  table : List DisplayRow
  chart1 : List (String × ℚ)
  chart2 : List (String × ℚ × ℚ)
deriving DecidableEq

def render (flt : List AggRow) (ws : List String) : Output :=
  let tc := aggSum flt (fun r => r.clicks)
  let tv := aggSum flt (fun r => r.views)
  let td := aggSum flt (fun r => r.direct)
  let ti := aggSum flt (fun r => r.indirect)
  let pos := flt.filter (fun r => decide (0 < r.direct))
  { warnings := ws,
    totViews := tv, totClicks := tc,
    ctrOverall := if 0 < tv then tc / tv * 100 else 0,
    crDirectAdjKpi := if 0 < tc - ti then td / (tc - ti) else 0,
    table := flt.map displayRow,
    chart1 := ((sortDesc (fun r => r.roiDirect) pos).take 10).map
      (fun r => (r.sku, r.roiDirect)),
    chart2 := ((sortDesc (fun r => r.addspend) pos).take 10).map
      (fun r => (r.sku, r.addspend, r.directRev)) }

/-- Steps 2-12: ingest, aggregate, filter (the date selection is only
honoured when the `Date` column exists, line 100), render. -/
def fullPipeline (inp : Input) (c : Controls) : Except String Output :=
  match pipelineAgg inp with
  | Except.error e => Except.error e
  | Except.ok p =>
    let cEff := { c with selDate := if inp.hasDate then c.selDate else none }
    match applyFilters p.1 p.2 cEff with
    | Except.error e => Except.error e
    | Except.ok r => Except.ok (render r.1 r.2)

/-- What the user ultimately sees: either a single error message
(lines 174-175) or the full rendered output. -/
inductive DashResult where
  | errorOnly : String → DashResult
  | view : Output → DashResult
deriving DecidableEq

/-- The whole script (lines 12-175): the entire pipeline inside one
`try`, any exception rendered as a single `st.error`. -/
def dashboard (inp : Input) (c : Controls) : DashResult :=
  match fullPipeline inp c with
  | Except.error e => DashResult.errorOnly ("Error: " ++ e)
  | Except.ok o => DashResult.view o

/-- Holds exactly on the error-only outcome (no KPI, table, or chart). -/
def isErrorOnly : DashResult → Bool
  | DashResult.errorOnly _ => true
  | DashResult.view _ => false

/-- Success test for `Except`. -/
def exceptOk {α : Type} : Except String α → Bool
  | Except.ok _ => true
  | Except.error _ => false

/-! ### Reference definitions for the refinement claim on Direct Revenue

The spec singles out two candidate definitions of a group's
`DirectRevenue`; these two definitions restate the spec's words and are
compared against the code's aggregation. -/

/-- The spec's row-level reference definition:
`TotalRevenue * DirectUnitsSold / TotalUnitsSold` on one raw row
(`0` when the row's `TotalUnitsSold` is `0`). -/
def specRowDirectRevenue (r : RawRow) : ℚ :=
  let d := r.direct.getD 0
  let i := r.indirect.getD 0
  let rev := r.revenue.getD 0
  if 0 < d + i then rev * d / (d + i) else 0

/-- The spec's rejected alternative: the same formula applied to the
group's post-aggregation sums. -/
def specPostAggDirectRevenue (revSum dSum tusSum : ℚ) : ℚ :=
  if 0 < tusSum then revSum * dSum / tusSum else 0

/-! ### Concrete example data -/

/-- Scenario row 1 of §8 of the spec. -/
def exRow1 : RawRow :=
  { sku := "A", views := some 100, clicks := some 10, direct := some 2,
    indirect := some 1, revenue := some 300, addspend := some 50,
    roi := none, date := none }

/-- Scenario row 2 of §8 of the spec. -/
def exRow2 : RawRow :=
  { sku := "A", views := some 50, clicks := some 5, direct := some 1,
    indirect := some 0, revenue := some 100, addspend := some 20,
    roi := none, date := none }

/-- The scenario upload: all required columns and `ADDSPEND` present. -/
def exInputScenario : Input :=
  { fileReadable := true, hasSku := true, hasViews := true, hasClicks := true,
    hasDirect := true, hasIndirect := true, hasRevenue := true,
    hasAddspend := true, hasRoi := false, hasDate := false,
    rows := [exRow1, exRow2] }

/-- A derived row whose group has `Clicks - Indirect Units Sold < 0`. -/
def exDRowNeg : DRow :=
  { sku := "A", views := some 10, clicks := some 1, direct := some 1,
    indirect := some 2, revenue := some 100, addspend := some 5,
    tus := some 3, directRev := some 100, date := none }

/-- A derived row whose group has `Views = 0` and `Clicks = 0`. -/
def exDRowZero : DRow :=
  { sku := "A", views := some 0, clicks := some 0, direct := some 0,
    indirect := some 0, revenue := some 0, addspend := some 0,
    tus := some 0, directRev := some 0, date := none }

/-- A derived row whose group has conversion rate `1/2`. -/
def exDRowCr : DRow :=
  { sku := "A", views := some 10, clicks := some 2, direct := some 1,
    indirect := some 0, revenue := some 100, addspend := some 10,
    tus := some 1, directRev := some 100, date := none }

/-- All-direct raw row, revenue 100 (revenue/unit ratio 100). -/
def exRawDirect1 : RawRow :=
  { sku := "A", views := some 10, clicks := some 2, direct := some 1,
    indirect := some 0, revenue := some 100, addspend := some 0,
    roi := none, date := none }

/-- All-direct raw row, revenue 200 (revenue/unit ratio 200). -/
def exRawDirect2 : RawRow :=
  { sku := "A", views := some 10, clicks := some 2, direct := some 1,
    indirect := some 0, revenue := some 200, addspend := some 0,
    roi := none, date := none }

/-- Raw row with one direct and one indirect unit (ratio 50). -/
def exRawVary1 : RawRow :=
  { sku := "A", views := some 10, clicks := some 2, direct := some 1,
    indirect := some 1, revenue := some 100, addspend := some 0,
    roi := none, date := none }

/-- Raw row with one direct unit only (ratio 100). -/
def exRawVary2 : RawRow :=
  { sku := "A", views := some 10, clicks := some 2, direct := some 1,
    indirect := some 0, revenue := some 100, addspend := some 0,
    roi := none, date := none }

/-- Controls with every filter inactive. -/
def exControlsNone : Controls :=
  { fClicks := "", fCtr := "", fCr := "", fSpend := "", fRev := "",
    selSkus := [], selDate := none }

/-- Controls with only the conversion-rate condition active. -/
def exControlsCr : Controls :=
  { fClicks := "", fCtr := "", fCr := "> 10", fSpend := "", fRev := "",
    selSkus := [], selDate := none }

/-- The scenario upload with the required `Views` column removed. -/
def exInputNoViews : Input :=
  { exInputScenario with hasViews := false }

/-! ### General list lemmas -/

lemma lfilter_filter {α : Type} (p q : α → Bool) :
    ∀ l : List α, (l.filter p).filter q = l.filter (fun a => p a && q a) := by
  intro l
  induction l with
  | nil => rfl
  | cons a as ih =>
    cases hp : p a <;> cases hq : q a <;>
      simp [List.filter_cons, hp, hq, ih]

lemma lmap_congr {α β : Type} (f g : α → β) :
    ∀ l : List α, (∀ x ∈ l, f x = g x) → l.map f = l.map g := by
  intro l
  induction l with
  | nil => intro _; rfl
  | cons a as ih =>
    intro h
    simp only [List.map_cons]
    rw [h a (List.mem_cons_self a as), ih (fun x hx => h x (List.mem_cons_of_mem a hx))]

lemma lfilter_congr {α : Type} (p q : α → Bool) :
    ∀ l : List α, (∀ x ∈ l, p x = q x) → l.filter p = l.filter q := by
  intro l
  induction l with
  | nil => intro _; rfl
  | cons a as ih =>
    intro h
    have ha := h a (List.mem_cons_self a as)
    have has := ih (fun x hx => h x (List.mem_cons_of_mem a hx))
    cases hq : q a <;> simp [List.filter_cons, ha, hq, has]

lemma lmap_filter {α β : Type} (f : α → β) (p : β → Bool) (q : α → Bool)
    (h : ∀ x, p (f x) = q x) :
    ∀ l : List α, (l.map f).filter p = (l.filter q).map f := by
  intro l
  induction l with
  | nil => rfl
  | cons a as ih =>
    cases hq : q a <;>
      simp [List.filter_cons, List.map_cons, h a, hq, ih]

lemma lfilter_true {α : Type} (p : α → Bool) :
    ∀ l : List α, (∀ x ∈ l, p x = true) → l.filter p = l := by
  intro l
  induction l with
  | nil => intro _; rfl
  | cons a as ih =>
    intro h
    simp [List.filter_cons, h a (List.mem_cons_self a as),
      ih (fun x hx => h x (List.mem_cons_of_mem a hx))]

/-! ### Aggregation lemmas -/

lemma sumCol_cons (r : DRow) (l : List DRow) (f : DRow → Option ℚ) :
    sumCol (r :: l) f = (f r).getD 0 + sumCol l f := by
  simp [sumCol]

lemma sum_split (f : DRow → Option ℚ) (k : String) :
    ∀ rows : List DRow,
      sumCol rows f =
        sumCol (grp rows k) f + sumCol (rows.filter (fun r => !(r.sku == k))) f := by
  intro rows
  induction rows with
  | nil => simp [sumCol, grp]
  | cons r rs ih =>
    cases hr : r.sku == k <;>
      simp [grp, List.filter_cons, hr, sumCol_cons, ih] at * <;> ring

lemma key_partition (f : DRow → Option ℚ) :
    ∀ ks : List String, ks.Nodup →
      ∀ rows : List DRow, (∀ r ∈ rows, r.sku ∈ ks) →
        ((ks.map (fun k => sumCol (grp rows k) f)).sum = sumCol rows f) := by
  intro ks
  induction ks with
  | nil =>
    intro _ rows hcov
    have hrows : rows = [] := by
      cases rows with
      | nil => rfl
      | cons r rs => exact absurd (hcov r (List.mem_cons_self r rs)) (List.not_mem_nil _)
    subst hrows
    simp [sumCol]
  | cons k ks ih =>
    intro hnd rows hcov
    have hknotin : k ∉ ks := (List.nodup_cons.mp hnd).1
    have hndtail : ks.Nodup := (List.nodup_cons.mp hnd).2
    simp only [List.map_cons, List.sum_cons]
    have hstep : ∀ k' ∈ ks,
        grp rows k' = grp (rows.filter (fun r => !(r.sku == k))) k' := by
      intro k' hk'
      have hkk : k' ≠ k := fun he => hknotin (he ▸ hk')
      unfold grp
      rw [lfilter_filter]
      apply lfilter_congr
      intro r _
      cases hrk : r.sku == k'
      · simp
      · have : r.sku = k' := by simpa using hrk
        have : (r.sku == k) = false := by
          simp [this]
          exact hkk
        simp [hrk, this]
    have hmap :
        ks.map (fun k' => sumCol (grp rows k') f) =
        ks.map (fun k' => sumCol (grp (rows.filter (fun r => !(r.sku == k))) k') f) :=
      lmap_congr _ _ ks (fun k' hk' => by rw [hstep k' hk'])
    have hcov' : ∀ r ∈ rows.filter (fun r => !(r.sku == k)), r.sku ∈ ks := by
      intro r hr
      have hmem := List.mem_of_mem_filter hr
      have hprop := List.of_mem_filter hr
      have hne : r.sku ≠ k := by simpa using hprop
      rcases List.mem_cons.mp (hcov r hmem) with he | hin
      · exact absurd he hne
      · exact hin
    rw [hmap, ih hndtail _ hcov']
    exact (sum_split f k rows).symm

lemma mem_aggregate {rows : List DRow} {a : AggRow} (h : a ∈ aggregate rows) :
    ∃ k, a = aggKey rows k := by
  unfold aggregate at h
  rcases List.mem_map.mp h with ⟨k, _, hk⟩
  exact ⟨k, hk.symm⟩

lemma agg_field_sum (rows : List DRow) (fA : AggRow → ℚ) (f : DRow → Option ℚ)
    (h : ∀ k, fA (aggKey rows k) = sumCol (grp rows k) f) :
    aggSum (aggregate rows) fA = sumCol rows f := by
  unfold aggSum aggregate
  rw [List.map_map]
  have hcong : (skuKeys rows).map (fA ∘ aggKey rows) =
      (skuKeys rows).map (fun k => sumCol (grp rows k) f) :=
    lmap_congr _ _ (skuKeys rows) (fun k _ => h k)
  rw [hcong]
  apply key_partition
  · exact List.nodup_dedup _
  · intro r hr
    unfold skuKeys
    exact List.mem_dedup.mpr (List.mem_map.mpr ⟨r, hr, rfl⟩)

/-! ### Claim theorems -/

/-- C1: aggregating the two scenario rows for Sku "A" (Views 100/50,
Clicks 10/5, Direct 2/1, Indirect 1/0, Revenue 300/100, AddSpend 50/20)
through the row-level derivation and aggregation pipeline yields exactly
one aggregated row with Views 150, Clicks 15, Direct 3, Indirect 1,
Revenue 400, AddSpend 70, TotalUnitsSold 4, CTR 10, ConversionRatePerSku
4/15, DirectRevenue 300 and ROI_Direct 300/70 = 30/7 (its adjusted
conversion rate is 3/14). -/
theorem scenario_aggregation :
    pipelineAggOnly exInputScenario = Except.ok
      [{ sku := "A", addspend := 70, views := 150, clicks := 15, direct := 3,
         indirect := 1, revenue := 400, directRev := 300, tus := 4,
         ctr := PdFloat.val 10, convRate := 4/15, crda := 3/14,
         roiDirect := 30/7 }] := by
  norm_num [pipelineAggOnly, pipelineAgg, readStep, step3, step4, step5,
    exInputScenario, exRow1, exRow2, exceptMap, step4Row, mkDRow, oadd, ogt0,
    omul, odiv, aggregate, skuKeys, aggKey, grp, sumCol, ctrOf, pdDiv,
    replaceInf, pdMul100, qRepl, List.dedup, List.pwFilter, List.filter]

/-- C10: the Step 5 aggregation is sum-preserving: for every derived row
set and each of the seven summed columns (`ADDSPEND`, `Views`, `Clicks`,
`Direct Units Sold`, `Indirect Units Sold`, `Total Revenue (Rs.)` and
the row-level `Direct Revenue`), the column total over the aggregated
rows equals the column total over all rows with null cells counted
as 0. -/
theorem aggregation_preserves_sums (rows : List DRow) :
    aggSum (aggregate rows) (fun a => a.addspend) = sumCol rows (fun r => r.addspend) ∧
    aggSum (aggregate rows) (fun a => a.views) = sumCol rows (fun r => r.views) ∧
    aggSum (aggregate rows) (fun a => a.clicks) = sumCol rows (fun r => r.clicks) ∧
    aggSum (aggregate rows) (fun a => a.direct) = sumCol rows (fun r => r.direct) ∧
    aggSum (aggregate rows) (fun a => a.indirect) = sumCol rows (fun r => r.indirect) ∧
    aggSum (aggregate rows) (fun a => a.revenue) = sumCol rows (fun r => r.revenue) ∧
    aggSum (aggregate rows) (fun a => a.directRev) = sumCol rows (fun r => r.directRev) := by
  refine ⟨?_, ?_, ?_, ?_, ?_, ?_, ?_⟩ <;>
    exact agg_field_sum rows _ _ (fun k => rfl)

/-- C3 (corrected): the code replaces the denominator
`Clicks - Indirect Units Sold` by `1` only when it is exactly `0`
(`Series.replace(0, 1)`); a strictly negative denominator is used
as-is.  For every aggregated group,
`ConversionRateDirectAdjusted = DirectUnitsSold / d` where `d` is `1`
when `Clicks - IndirectUnitsSold = 0` and `Clicks - IndirectUnitsSold`
otherwise (also when negative). -/
theorem crda_denominator_replaced_only_at_zero (rows : List DRow) (a : AggRow)
    (ha : a ∈ aggregate rows) :
    a.crda = a.direct /
      (if a.clicks - a.indirect = 0 then 1 else a.clicks - a.indirect) := by
  rcases mem_aggregate ha with ⟨k, rfl⟩
  rfl

/-- The aggregated row of the negative-denominator example. -/
def exAggNeg : AggRow := aggKey [exDRowNeg] "A"

theorem crda_denominator_replaced_only_at_zero_witness :
    exAggNeg.crda = exAggNeg.direct /
      (if exAggNeg.clicks - exAggNeg.indirect = 0 then 1
       else exAggNeg.clicks - exAggNeg.indirect) :=
  crda_denominator_replaced_only_at_zero [exDRowNeg] exAggNeg
    (List.mem_singleton.mpr rfl)

/-- C3 counterexample: a group with `Clicks = 1` and
`Indirect Units Sold = 2` has denominator `-1 ≤ 0`; the code yields
`ConversionRateDirectAdjusted = -1`, while the claimed
treat-non-positive-as-1 rule yields `1`. -/
theorem crda_negative_denominator_counterexample :
    (aggregate [exDRowNeg]).map (fun a => a.crda) = [-1] ∧
    (aggregate [exDRowNeg]).map
      (fun a => a.direct /
        (if a.clicks - a.indirect ≤ 0 then 1 else a.clicks - a.indirect)) = [1] ∧
    ((-1 : ℚ)) ≠ 1 := by
  refine ⟨?_, ?_, by norm_num⟩ <;>
    norm_num [aggregate, skuKeys, aggKey, grp, sumCol, exDRowNeg, qRepl,
      List.filter]

/-- C4 (corrected): on an aggregated group, `CTR` is
`Clicks / Views * 100` when `Views ≠ 0`, and when `Views = 0` the
division-by-zero infinity is replaced by `0` only for `Clicks > 0`;
for `Views = 0` and `Clicks = 0` pandas produces `0/0 = NaN`, which
`.replace([inf, -inf], 0)` does not touch, so `CTR` is `NaN`,
not `0`. -/
theorem ctr_views_zero_cases (rows : List DRow) (a : AggRow)
    (ha : a ∈ aggregate rows) :
    (a.views ≠ 0 → a.ctr = PdFloat.val (a.clicks / a.views * 100)) ∧
    (a.views = 0 → 0 < a.clicks → a.ctr = PdFloat.val 0) ∧
    (a.views = 0 → a.clicks = 0 → a.ctr = PdFloat.nan) := by
  rcases mem_aggregate ha with ⟨k, rfl⟩
  have hctr : (aggKey rows k).ctr =
      ctrOf (aggKey rows k).clicks (aggKey rows k).views := rfl
  refine ⟨?_, ?_, ?_⟩
  · intro hv
    rw [hctr]
    unfold ctrOf pdDiv
    rw [if_neg hv]
    rfl
  · intro hv hc
    rw [hctr]
    unfold ctrOf pdDiv
    rw [if_pos hv, if_pos hc]
    norm_num [replaceInf, pdMul100]
  · intro hv hc
    rw [hctr]
    unfold ctrOf pdDiv
    rw [if_pos hv, hc]
    norm_num [replaceInf, pdMul100]

/-- The aggregated row of the all-zero example. -/
def exAggZero : AggRow := aggKey [exDRowZero] "A"

theorem ctr_views_zero_cases_witness : exAggZero.ctr = PdFloat.nan :=
  (ctr_views_zero_cases [exDRowZero] exAggZero (List.mem_singleton.mpr rfl)).2.2
    (by simp [exAggZero, aggKey, grp, sumCol, exDRowZero, List.filter])
    (by simp [exAggZero, aggKey, grp, sumCol, exDRowZero, List.filter])

/-- C4 counterexample: the group of a single all-zero row has
`Views = 0` and `Clicks = 0`, yet its `CTR` is `NaN`, not `0`. -/
theorem ctr_nan_counterexample :
    (aggregate [exDRowZero]).map (fun a => (a.views, a.clicks, a.ctr)) =
      [((0 : ℚ), (0 : ℚ), PdFloat.nan)] ∧
    PdFloat.nan ≠ PdFloat.val 0 := by
  constructor
  · norm_num [aggregate, skuKeys, aggKey, grp, sumCol, exDRowZero, ctrOf,
      pdDiv, replaceInf, pdMul100, List.filter]
  · simp

lemma row4p_directRev_spec (r : RawRow) (hd : r.direct.isSome)
    (hi : r.indirect.isSome) (hr : r.revenue.isSome) :
    ((row4p r).directRev).getD 0 = specRowDirectRevenue r := by
  obtain ⟨d, hd'⟩ := Option.isSome_iff_exists.mp hd
  obtain ⟨i, hi'⟩ := Option.isSome_iff_exists.mp hi
  obtain ⟨rev, hr'⟩ := Option.isSome_iff_exists.mp hr
  simp only [row4p, mkDRow, oadd, hd', hi', hr', ogt0, omul, odiv,
    specRowDirectRevenue, Option.getD_some]
  by_cases h : 0 < d + i
  · simp [h]
    ring
  · simp [h]

/-- C2 (corrected): each group's aggregated `Direct Revenue` is the sum
over the group's raw rows of the row-level value
`TotalRevenue * DirectUnitsSold / TotalUnitsSold` (`0` when the row's
`TotalUnitsSold` is `0`), computed before grouping — and this row-level
order can disagree with the post-aggregation formula when per-row
revenue/unit ratios vary (the two rows `exRawVary1`/`exRawVary2` give
`150` row-level against `400/3` post-aggregation) — but it does not
disagree *whenever* the ratios vary (see the counterexample). -/
theorem direct_revenue_row_level_then_summed :
    (∀ rows : List RawRow,
      (∀ r ∈ rows, r.direct.isSome ∧ r.indirect.isSome ∧ r.revenue.isSome) →
      ∀ a ∈ aggregate (rows.map row4p),
        a.directRev =
          ((rows.filter (fun r => r.sku == a.sku)).map specRowDirectRevenue).sum) ∧
    ((aggregate ([exRawVary1, exRawVary2].map row4p)).map (fun a => a.directRev) =
        [150] ∧
      specPostAggDirectRevenue 200 2 3 = 400/3 ∧ (150 : ℚ) ≠ 400/3) := by
  constructor
  · intro rows hnn a ha
    rcases mem_aggregate ha with ⟨k, rfl⟩
    have hsku : (aggKey (rows.map row4p) k).sku = k := rfl
    have hdr : (aggKey (rows.map row4p) k).directRev =
        sumCol (grp (rows.map row4p) k) (fun r => r.directRev) := rfl
    rw [hsku, hdr]
    have hfm : grp (rows.map row4p) k =
        (rows.filter (fun r => r.sku == k)).map row4p := by
      unfold grp
      exact lmap_filter row4p _ _ (fun x => rfl) rows
    rw [hfm]
    unfold sumCol
    rw [List.map_map]
    apply congrArg List.sum
    apply lmap_congr
    intro r hrf
    obtain ⟨h1, h2, h3⟩ := hnn r (List.mem_of_mem_filter hrf)
    exact row4p_directRev_spec r h1 h2 h3
  · refine ⟨?_, by norm_num [specPostAggDirectRevenue], by norm_num⟩
    norm_num [aggregate, skuKeys, aggKey, grp, sumCol, row4p, mkDRow, oadd,
      ogt0, omul, odiv, exRawVary1, exRawVary2, List.dedup, List.pwFilter,
      List.filter]

/-- The aggregated row of the single all-direct example row. -/
def exAggDirect1 : AggRow := aggKey ([exRawDirect1].map row4p) "A"

theorem direct_revenue_row_level_then_summed_witness :
    exAggDirect1.directRev =
      (([exRawDirect1].filter (fun r => r.sku == exAggDirect1.sku)).map
        specRowDirectRevenue).sum :=
  direct_revenue_row_level_then_summed.1 [exRawDirect1]
    (by intro r hr; simp [List.mem_singleton.mp hr, exRawDirect1])
    exAggDirect1 (List.mem_singleton.mpr rfl)

/-! ### Condition-parser lemmas -/

lemma isSpace_cases {c : Char} (h : isSpaceCh c = true) :
    c = ' ' ∨ c = '\t' ∨ c = '\n' ∨ c = '\r' ∨ c = '\x0b' ∨ c = '\x0c' := by
  simp only [isSpaceCh, Bool.or_eq_true, beq_iff_eq] at h
  tauto

lemma space_not_digit {c : Char} (h : isSpaceCh c = true) : c.isDigit = false := by
  rcases isSpace_cases h with rfl | rfl | rfl | rfl | rfl | rfl <;> decide

lemma space_ne_eqch {c : Char} (h : isSpaceCh c = true) : c ≠ '=' := by
  rcases isSpace_cases h with rfl | rfl | rfl | rfl | rfl | rfl <;> decide

lemma space_ne_dot {c : Char} (h : isSpaceCh c = true) : c ≠ '.' := by
  rcases isSpace_cases h with rfl | rfl | rfl | rfl | rfl | rfl <;> decide

lemma digit_not_space {c : Char} (h : c.isDigit = true) : isSpaceCh c = false := by
  cases hs : isSpaceCh c
  · rfl
  · rw [space_not_digit hs] at h
    cases h

lemma digit_ne_eqch {c : Char} (h : c.isDigit = true) : c ≠ '=' := by
  intro he
  rw [he] at h
  exact absurd h (by decide)

lemma digit_ne_dot {c : Char} (h : c.isDigit = true) : c ≠ '.' := by
  intro he
  rw [he] at h
  exact absurd h (by decide)

lemma lisEmpty_eq_nil {α : Type} {l : List α} (h : l.isEmpty = true) : l = [] := by
  cases l with
  | nil => rfl
  | cons a as => cases h

lemma ldropWhile_append_all {α : Type} (p : α → Bool) (w : List α)
    (h : ∀ x ∈ w, p x = true) (l : List α) :
    (w ++ l).dropWhile p = l.dropWhile p := by
  induction w with
  | nil => rfl
  | cons a as ih =>
    have ha : p a = true := h a (List.mem_cons_self a as)
    simp only [List.cons_append, List.dropWhile_cons, ha, if_true]
    exact ih (fun x hx => h x (List.mem_cons_of_mem a hx))

lemma ldropWhile_head_false {α : Type} (p : α → Bool) (a : α) (l : List α)
    (h : p a = false) : (a :: l).dropWhile p = a :: l := by
  simp [List.dropWhile_cons, h]

lemma ltakeWhile_append_all {α : Type} (p : α → Bool) (w : List α)
    (h : ∀ x ∈ w, p x = true) (l : List α) :
    (w ++ l).takeWhile p = w ++ l.takeWhile p := by
  induction w with
  | nil => rfl
  | cons a as ih =>
    have ha : p a = true := h a (List.mem_cons_self a as)
    simp only [List.cons_append, List.takeWhile_cons, ha, if_true]
    rw [ih (fun x hx => h x (List.mem_cons_of_mem a hx))]

lemma ltakeWhile_head_false {α : Type} (p : α → Bool) (a : α) (l : List α)
    (h : p a = false) : (a :: l).takeWhile p = [] := by
  simp [List.takeWhile_cons, h]

lemma opStrings_head {os : List Char} (hos : os ∈ opStrings) :
    ∃ c t, os = c :: t ∧ isSpaceCh c = false := by
  simp only [opStrings, List.mem_cons, List.not_mem_nil, or_false] at hos
  rcases hos with rfl | rfl | rfl | rfl | rfl | rfl <;> exact ⟨_, _, rfl, by decide⟩

lemma numToken_head {n : List Char} (hn : numToken n) :
    ∃ c t, n = c :: t ∧ c.isDigit = true := by
  rcases hn with ⟨hne, hdig⟩ | ⟨a, b, ha, hb, hda, hdb, rfl⟩
  · cases n with
    | nil => exact absurd rfl hne
    | cons c t => exact ⟨c, t, rfl, hdig c (List.mem_cons_self c t)⟩
  · cases a with
    | nil => exact absurd rfl ha
    | cons c t => exact ⟨c, t ++ '.' :: b, rfl, hda c (List.mem_cons_self c t)⟩

lemma parseOp_some_decomp {l : List Char} {op : CmpOp} {r : List Char}
    (h : parseOp l = some (op, r)) : ∃ os ∈ opStrings, l = os ++ r := by
  cases l with
  | nil => exact absurd h (by simp [parseOp])
  | cons c1 rest1 =>
    cases rest1 with
    | nil =>
      simp only [parseOp] at h
      by_cases h1 : c1 = '>'
      · rw [if_pos h1] at h
        obtain ⟨rfl, rfl⟩ : CmpOp.gt = op ∧ ([] : List Char) = r := by
          simpa using h
        exact ⟨['>'], by simp [opStrings], by simp [h1]⟩
      · rw [if_neg h1] at h
        by_cases h2 : c1 = '<'
        · rw [if_pos h2] at h
          obtain ⟨rfl, rfl⟩ : CmpOp.lt = op ∧ ([] : List Char) = r := by
            simpa using h
          exact ⟨['<'], by simp [opStrings], by simp [h2]⟩
        · rw [if_neg h2] at h
          by_cases h3 : c1 = '='
          · rw [if_pos h3] at h
            obtain ⟨rfl, rfl⟩ : CmpOp.eqa = op ∧ ([] : List Char) = r := by
              simpa using h
            exact ⟨['='], by simp [opStrings], by simp [h3]⟩
          · rw [if_neg h3] at h
            cases h
    | cons c2 rest2 =>
      simp only [parseOp] at h
      by_cases h1 : c1 = '>' ∧ c2 = '='
      · rw [if_pos h1] at h
        obtain ⟨rfl, rfl⟩ : CmpOp.ge = op ∧ rest2 = r := by simpa using h
        exact ⟨['>', '='], by simp [opStrings], by simp [h1.1, h1.2]⟩
      · rw [if_neg h1] at h
        by_cases h2 : c1 = '<' ∧ c2 = '='
        · rw [if_pos h2] at h
          obtain ⟨rfl, rfl⟩ : CmpOp.le = op ∧ rest2 = r := by simpa using h
          exact ⟨['<', '='], by simp [opStrings], by simp [h2.1, h2.2]⟩
        · rw [if_neg h2] at h
          by_cases h3 : c1 = '=' ∧ c2 = '='
          · rw [if_pos h3] at h
            obtain ⟨rfl, rfl⟩ : CmpOp.eqq = op ∧ rest2 = r := by simpa using h
            exact ⟨['=', '='], by simp [opStrings], by simp [h3.1, h3.2]⟩
          · rw [if_neg h3] at h
            by_cases h4 : c1 = '>'
            · rw [if_pos h4] at h
              obtain ⟨rfl, rfl⟩ : CmpOp.gt = op ∧ c2 :: rest2 = r := by
                simpa using h
              exact ⟨['>'], by simp [opStrings], by simp [h4]⟩
            · rw [if_neg h4] at h
              by_cases h5 : c1 = '<'
              · rw [if_pos h5] at h
                obtain ⟨rfl, rfl⟩ : CmpOp.lt = op ∧ c2 :: rest2 = r := by
                  simpa using h
                exact ⟨['<'], by simp [opStrings], by simp [h5]⟩
              · rw [if_neg h5] at h
                by_cases h6 : c1 = '='
                · rw [if_pos h6] at h
                  obtain ⟨rfl, rfl⟩ : CmpOp.eqa = op ∧ c2 :: rest2 = r := by
                    simpa using h
                  exact ⟨['='], by simp [opStrings], by simp [h6]⟩
                · rw [if_neg h6] at h
                  cases h

lemma parseOp_complete {os : List Char} (hos : os ∈ opStrings) (h1 : Char)
    (t : List Char) (hh : isSpaceCh h1 = true ∨ h1.isDigit = true) :
    ∃ oc, parseOp (os ++ h1 :: t) = some (oc, h1 :: t) := by
  have hne : h1 ≠ '=' := by
    rcases hh with hh | hh
    · exact space_ne_eqch hh
    · exact digit_ne_eqch hh
  simp only [opStrings, List.mem_cons, List.not_mem_nil, or_false] at hos
  rcases hos with rfl | rfl | rfl | rfl | rfl | rfl
  · exact ⟨CmpOp.ge, by simp [parseOp]⟩
  · exact ⟨CmpOp.le, by simp [parseOp]⟩
  · exact ⟨CmpOp.eqq, by simp [parseOp]⟩
  · exact ⟨CmpOp.gt, by simp [parseOp, hne]⟩
  · exact ⟨CmpOp.lt, by simp [parseOp, hne]⟩
  · exact ⟨CmpOp.eqa, by simp [parseOp, hne]⟩

lemma parseNum_some_decomp {l : List Char} {v : ℚ} {rest : List Char}
    (h : parseNum l = some (v, rest)) : ∃ n, numToken n ∧ l = n ++ rest := by
  unfold parseNum at h
  by_cases hds : (l.takeWhile Char.isDigit).isEmpty
  · rw [if_pos hds] at h
    cases h
  · rw [if_neg hds] at h
    have hl : l.takeWhile Char.isDigit ++ l.dropWhile Char.isDigit = l :=
      List.takeWhile_append_dropWhile _ _
    have hds_ne : l.takeWhile Char.isDigit ≠ [] := by
      intro he
      rw [he] at hds
      exact hds rfl
    have hdig : ∀ c ∈ l.takeWhile Char.isDigit, Char.isDigit c = true :=
      fun c hc => List.mem_takeWhile_imp hc
    cases hdw : l.dropWhile Char.isDigit with
    | nil =>
      rw [hdw] at h
      simp only [parseNumTail] at h
      obtain ⟨hv, hrest⟩ : (digitsVal (l.takeWhile Char.isDigit) : ℚ) = v ∧
          ([] : List Char) = rest := by simpa using h
      refine ⟨l.takeWhile Char.isDigit, Or.inl ⟨hds_ne, hdig⟩, ?_⟩
      rw [← hrest, List.append_nil]
      rw [hdw] at hl
      rw [List.append_nil] at hl
      exact hl.symm
    | cons c r2 =>
      rw [hdw] at h
      simp only [parseNumTail] at h
      by_cases hc : c = '.'
      · subst hc
        rw [if_pos rfl] at h
        by_cases hfs : (r2.takeWhile Char.isDigit).isEmpty
        · rw [if_pos hfs] at h
          cases h
        · rw [if_neg hfs] at h
          obtain ⟨hv, hrest⟩ : _ ∧ r2.dropWhile Char.isDigit = rest := by
            simpa using h
          have hfs_ne : r2.takeWhile Char.isDigit ≠ [] := by
            intro he
            rw [he] at hfs
            exact hfs rfl
          have hfsdig : ∀ c ∈ r2.takeWhile Char.isDigit, Char.isDigit c = true :=
            fun c hc => List.mem_takeWhile_imp hc
          refine ⟨l.takeWhile Char.isDigit ++ '.' :: r2.takeWhile Char.isDigit,
            Or.inr ⟨l.takeWhile Char.isDigit, r2.takeWhile Char.isDigit,
              hds_ne, hfs_ne, hdig, hfsdig, rfl⟩, ?_⟩
          have hr2 : r2.takeWhile Char.isDigit ++ r2.dropWhile Char.isDigit = r2 :=
            List.takeWhile_append_dropWhile _ _
          rw [hdw] at hl
          have e2 : r2.takeWhile Char.isDigit ++ rest = r2 := by
            rw [← hrest]
            exact hr2
          calc l = l.takeWhile Char.isDigit ++ '.' :: r2 := hl.symm
            _ = l.takeWhile Char.isDigit ++
                '.' :: (r2.takeWhile Char.isDigit ++ rest) := by rw [e2]
            _ = (l.takeWhile Char.isDigit ++ '.' :: r2.takeWhile Char.isDigit) ++
                rest := by simp [List.append_assoc]
      · rw [if_neg hc] at h
        obtain ⟨hv, hrest⟩ : (digitsVal (l.takeWhile Char.isDigit) : ℚ) = v ∧
            c :: r2 = rest := by simpa using h
        refine ⟨l.takeWhile Char.isDigit, Or.inl ⟨hds_ne, hdig⟩, ?_⟩
        rw [← hrest]
        rw [hdw] at hl
        exact hl.symm

lemma parseNum_complete {n w : List Char} (hn : numToken n)
    (hw : ∀ c ∈ w, isSpaceCh c = true) :
    ∃ v, parseNum (n ++ w) = some (v, w) := by
  have hwnd : ∀ c ∈ w, Char.isDigit c = false := fun c hc => space_not_digit (hw c hc)
  have htw : w.takeWhile Char.isDigit = [] := by
    cases w with
    | nil => rfl
    | cons c t => exact ltakeWhile_head_false _ _ _ (hwnd c (List.mem_cons_self c t))
  have hdw : w.dropWhile Char.isDigit = w := by
    cases w with
    | nil => rfl
    | cons c t => exact ldropWhile_head_false _ _ _ (hwnd c (List.mem_cons_self c t))
  rcases hn with ⟨hne, hdig⟩ | ⟨a, b, ha, hb, hda, hdb, rfl⟩
  · have ht : (n ++ w).takeWhile Char.isDigit = n := by
      rw [ltakeWhile_append_all Char.isDigit n hdig w, htw, List.append_nil]
    have hd : (n ++ w).dropWhile Char.isDigit = w := by
      rw [ldropWhile_append_all Char.isDigit n hdig w, hdw]
    have hne' : n.isEmpty = false := by
      cases n with
      | nil => exact absurd rfl hne
      | cons c t => rfl
    refine ⟨(digitsVal n : ℚ), ?_⟩
    unfold parseNum
    rw [ht, hd, hne']
    cases w with
    | nil => simp [parseNumTail]
    | cons c t =>
      have hc : c ≠ '.' := space_ne_dot (hw c (List.mem_cons_self c t))
      simp [parseNumTail, hc]
  · have hta : ((a ++ '.' :: b) ++ w).takeWhile Char.isDigit = a := by
      rw [List.append_assoc, ltakeWhile_append_all Char.isDigit a hda,
        List.cons_append,
        ltakeWhile_head_false _ _ _ (by decide : Char.isDigit '.' = false),
        List.append_nil]
    have hda' : ((a ++ '.' :: b) ++ w).dropWhile Char.isDigit = '.' :: (b ++ w) := by
      rw [List.append_assoc, ldropWhile_append_all Char.isDigit a hda]
      rw [List.cons_append]
      exact ldropWhile_head_false _ _ _ (by decide : Char.isDigit '.' = false)
    have htb : (b ++ w).takeWhile Char.isDigit = b := by
      rw [ltakeWhile_append_all Char.isDigit b hdb w, htw, List.append_nil]
    have hdb' : (b ++ w).dropWhile Char.isDigit = w := by
      rw [ldropWhile_append_all Char.isDigit b hdb w, hdw]
    have hna : a.isEmpty = false := by
      cases a with
      | nil => exact absurd rfl ha
      | cons c t => rfl
    have hnb : b.isEmpty = false := by
      cases b with
      | nil => exact absurd rfl hb
      | cons c t => rfl
    refine ⟨(digitsVal a : ℚ) + (digitsVal b : ℚ) / (10 : ℚ) ^ b.length, ?_⟩
    unfold parseNum
    rw [hta, hda', hna]
    simp [parseNumTail, htb, hdb', hnb]

lemma parseCond_grammar_iff (l : List Char) :
    (parseCond l).isSome ↔ condGrammar l := by
  constructor
  · intro h
    unfold parseCond at h
    cases hop : parseOp (l.dropWhile isSpaceCh) with
    | none =>
      rw [hop] at h
      simp [parseCondOp] at h
    | some pr =>
      obtain ⟨op, r⟩ := pr
      rw [hop] at h
      simp only [parseCondOp] at h
      cases hnum : parseNum (r.dropWhile isSpaceCh) with
      | none =>
        rw [hnum] at h
        simp [parseCondNum] at h
      | some pv =>
        obtain ⟨v, rest⟩ := pv
        rw [hnum] at h
        simp only [parseCondNum] at h
        by_cases hend : (rest.dropWhile isSpaceCh).isEmpty
        · obtain ⟨os, hos, hosdec⟩ := parseOp_some_decomp hop
          obtain ⟨n, hn, hndec⟩ := parseNum_some_decomp hnum
          refine ⟨l.takeWhile isSpaceCh, os, r.takeWhile isSpaceCh, n, rest,
            (fun c hc => List.mem_takeWhile_imp hc), hos,
            (fun c hc => List.mem_takeWhile_imp hc), hn,
            (fun c hc => List.dropWhile_eq_nil_iff.mp (lisEmpty_eq_nil hend) c hc),
            ?_⟩
          have hl : l.takeWhile isSpaceCh ++ l.dropWhile isSpaceCh = l :=
            List.takeWhile_append_dropWhile _ _
          have hr : r.takeWhile isSpaceCh ++ r.dropWhile isSpaceCh = r :=
            List.takeWhile_append_dropWhile _ _
          calc l = l.takeWhile isSpaceCh ++ l.dropWhile isSpaceCh := hl.symm
            _ = l.takeWhile isSpaceCh ++ (os ++ r) := by rw [hosdec]
            _ = l.takeWhile isSpaceCh ++
                (os ++ (r.takeWhile isSpaceCh ++ r.dropWhile isSpaceCh)) := by
                  rw [hr]
            _ = l.takeWhile isSpaceCh ++
                (os ++ (r.takeWhile isSpaceCh ++ (n ++ rest))) := by rw [hndec]
            _ = l.takeWhile isSpaceCh ++ os ++ r.takeWhile isSpaceCh ++ n ++
                rest := by simp [List.append_assoc]
        · rw [if_neg hend] at h
          simp at h
  · rintro ⟨w1, os, w2, n, w3, hw1, hos, hw2, hn, hw3, rfl⟩
    obtain ⟨c0, t0, hos_eq, hc0⟩ := opStrings_head hos
    have hA : ((w1 ++ os ++ w2 ++ n ++ w3).dropWhile isSpaceCh) =
        os ++ (w2 ++ (n ++ w3)) := by
      have hassoc : w1 ++ os ++ w2 ++ n ++ w3 = w1 ++ (os ++ (w2 ++ (n ++ w3))) := by
        simp [List.append_assoc]
      rw [hassoc, ldropWhile_append_all _ w1 hw1, hos_eq, List.cons_append]
      exact ldropWhile_head_false _ _ _ hc0
    obtain ⟨h1, t1, hrest_eq, hh1⟩ :
        ∃ h1 t1, w2 ++ (n ++ w3) = h1 :: t1 ∧
          (isSpaceCh h1 = true ∨ h1.isDigit = true) := by
      cases w2 with
      | cons c t =>
        exact ⟨c, t ++ (n ++ w3), rfl, Or.inl (hw2 c (List.mem_cons_self c t))⟩
      | nil =>
        obtain ⟨c, t, hn_eq, hc⟩ := numToken_head hn
        refine ⟨c, t ++ w3, ?_, Or.inr hc⟩
        rw [List.nil_append, hn_eq, List.cons_append]
    obtain ⟨oc, hoc⟩ := parseOp_complete hos h1 t1 hh1
    rw [hrest_eq] at hA
    have hC : ((h1 :: t1).dropWhile isSpaceCh) = n ++ w3 := by
      rw [← hrest_eq, ldropWhile_append_all _ w2 hw2]
      obtain ⟨c, t, hn_eq, hc⟩ := numToken_head hn
      rw [hn_eq, List.cons_append]
      exact ldropWhile_head_false _ _ _ (digit_not_space hc)
    obtain ⟨v, hv⟩ := parseNum_complete hn hw3
    have hw3nil : (w3.dropWhile isSpaceCh) = [] :=
      List.dropWhile_eq_nil_iff.mpr (fun x hx => hw3 x hx)
    simp only [parseCond, hA, hoc, parseCondOp, hC, hv, parseCondNum, hw3nil,
      List.isEmpty_nil, if_true]
    simp

/-- C6: the condition parser accepts exactly the strings of the form
"optional whitespace, one operator of `{>=, <=, >, <, ==, =}`, optional
whitespace, a non-negative decimal number (a digit run, or digit run,
dot, digit run), optional whitespace"; `"> 100"` parses to `(>, 100)`,
`">=2.5"` to `(>=, 5/2)` and `"abc"` is malformed; on malformed input
`apply_condition` emits a warning naming the column and returns the
table unchanged (fail-open, no exception). -/
theorem condition_parser_spec :
    (∀ l : List Char, (parseCond l).isSome ↔ condGrammar l) ∧
    parseCond ("> 100".data) = some (CmpOp.gt, 100) ∧
    parseCond (">=2.5".data) = some (CmpOp.ge, 5/2) ∧
    parseCond ("abc".data) = none ∧
    (∀ (df : List AggRow) (col : Column) (cond : String),
      parseCond cond.data = none →
      applyCondition df col cond = Except.ok (df, [invalidFilterMsg col.name])) := by
  refine ⟨parseCond_grammar_iff, ?_, ?_, rfl, ?_⟩
  · have h1 : parseCond ("> 100".data) =
        some (CmpOp.gt, ((100 : ℕ) : ℚ)) := rfl
    rw [h1]
    norm_num
  · have h2 : parseCond (">=2.5".data) =
        some (CmpOp.ge, ((2 : ℕ) : ℚ) + ((5 : ℕ) : ℚ) / (10 : ℚ) ^ (1 : ℕ)) := rfl
    rw [h2]
    norm_num
  · intro df col cond h
    simp [applyCondition, applyCondParsed, h]

theorem condition_parser_spec_witness :
    applyCondition [] colClicks "abc" =
      Except.ok ([], [invalidFilterMsg colClicks.name]) :=
  condition_parser_spec.2.2.2.2 [] colClicks "abc" rfl

/-- C2 counterexample: the rows `exRawDirect1` (revenue 100, 1 direct
unit) and `exRawDirect2` (revenue 200, 1 direct unit) have different
per-row revenue/unit ratios (100 against 200), yet the row-level sum
(300) and the post-aggregation formula (`300 * 2 / 2 = 300`) coincide —
refuting "the two definitions differ whenever the ratios vary". -/
theorem direct_revenue_whenever_counterexample :
    (aggregate ([exRawDirect1, exRawDirect2].map row4p)).map
        (fun a => a.directRev) = [300] ∧
    specPostAggDirectRevenue 300 2 2 = 300 ∧
    (exRawDirect1.revenue.getD 0) /
        (exRawDirect1.direct.getD 0 + exRawDirect1.indirect.getD 0) ≠
      (exRawDirect2.revenue.getD 0) /
        (exRawDirect2.direct.getD 0 + exRawDirect2.indirect.getD 0) := by
  refine ⟨?_, by norm_num [specPostAggDirectRevenue],
    by norm_num [exRawDirect1, exRawDirect2]⟩
  norm_num [aggregate, skuKeys, aggKey, grp, sumCol, row4p, mkDRow, oadd,
    ogt0, omul, odiv, exRawDirect1, exRawDirect2, List.dedup, List.pwFilter,
    List.filter]

/-! ### Filter-pipeline lemmas -/

lemma parseCond_blank : parseCond (("" : String).data) = none := rfl

lemma condPred_blank (col : Column) (r : AggRow) : condPred col "" r = true := rfl

lemma condPred_of_parse_none {col : Column} {s : String}
    (h : parseCond s.data = none) (r : AggRow) : condPred col s r = true := by
  unfold condPred
  rw [h]
  rfl

lemma condPred_of_parse_some {col : Column} {s : String} {op : CmpOp} {t : ℚ}
    (h : parseCond s.data = some (op, t)) (r : AggRow) :
    condPred col s r = evalCmp op (col.get r) t := by
  unfold condPred
  rw [h]
  rfl

lemma condPred_scale (col : Column) (hcol : ∀ x, col.get (scaleCr x) = col.get x)
    (s : String) (x : AggRow) : condPred col s (scaleCr x) = condPred col s x := by
  unfold condPred
  cases parseCond s.data with
  | none => rfl
  | some pr =>
    obtain ⟨op, t⟩ := pr
    show evalCmp op (col.get (scaleCr x)) t = evalCmp op (col.get x) t
    rw [hcol]

lemma condStep_ok_filter {df out : List AggRow} {ws : List String}
    {col : Column} {s : String}
    (h : condStep df col s = Except.ok (out, ws)) :
    out = df.filter (condPred col s) := by
  unfold condStep at h
  by_cases hs : s = ""
  · rw [if_pos hs] at h
    injection h with h1
    injection h1 with hout hws
    subst hout
    subst hs
    exact (lfilter_true _ df (fun r _ => condPred_blank col r)).symm
  · rw [if_neg hs] at h
    unfold applyCondition at h
    cases hp : parseCond s.data with
    | none =>
      rw [hp] at h
      simp only [applyCondParsed] at h
      injection h with h1
      injection h1 with hout hws
      subst hout
      exact (lfilter_true _ df (fun r _ => condPred_of_parse_none hp r)).symm
    | some pr =>
      obtain ⟨op, t⟩ := pr
      rw [hp] at h
      simp only [applyCondParsed] at h
      by_cases hq : op = CmpOp.eqa
      · rw [if_pos hq] at h
        cases h
      · rw [if_neg hq] at h
        injection h with h1
        injection h1 with hout hws
        subst hout
        exact lfilter_congr _ _ df
          (fun r _ => (condPred_of_parse_some hp r).symm)

lemma scaleCr_clicks (x : AggRow) : colClicks.get (scaleCr x) = colClicks.get x := rfl

lemma scaleCr_ctr (x : AggRow) : colCtr.get (scaleCr x) = colCtr.get x := rfl

lemma scaleCr_spend (x : AggRow) : colSpend.get (scaleCr x) = colSpend.get x := rfl

lemma scaleCr_rev (x : AggRow) : colRev.get (scaleCr x) = colRev.get x := rfl

lemma applyFilters_ok (raw : List DRow) (agg : List AggRow)
    (c : Controls) (out : List AggRow) (ws : List String)
    (h : applyFilters raw agg c = Except.ok (out, ws)) :
    out = (agg.map (scaleIf c)).filter (pipePred raw c) := by
  unfold applyFilters at h
  split at h
  next e heq1 => exact absurd h (by simp)
  next d1 w1 heq1 =>
  split at h
  next e heq2 => exact absurd h (by simp)
  next d2 w2 heq2 =>
  split at h
  next e heq3 => exact absurd h (by simp)
  next d3 w3 heq3 =>
  split at h
  next e heq4 => exact absurd h (by simp)
  next d4 w4 heq4 =>
  split at h
  next e heq5 => exact absurd h (by simp)
  next d5 w5 heq5 =>
  have e1 := condStep_ok_filter heq1
  have e2 := condStep_ok_filter heq2
  have e3 := condStep_ok_filter heq3
  have e4 := condStep_ok_filter heq4
  have e5 := condStep_ok_filter heq5
  injection h with h1
  injection h1 with hout hws
  have hd6 : applySku c d5 =
      d5.filter (fun r => c.selSkus.isEmpty || c.selSkus.contains r.sku) := by
    unfold applySku
    cases hse : c.selSkus.isEmpty
    · simp [hse]
    · rw [if_pos rfl]
      exact (lfilter_true _ d5 (fun x _ => by simp [hse])).symm
  have hd7 : applySkuDate raw c d5 =
      (d5.filter (fun r => c.selSkus.isEmpty ||
        c.selSkus.contains r.sku)).filter
        (fun r => match c.selDate with
          | none => true
          | some dt => (skusOnDate raw dt).contains r.sku) := by
    unfold applySkuDate
    cases hsd : c.selDate with
    | none =>
      rw [hd6]
      exact (lfilter_true _ _ (fun x _ => rfl)).symm
    | some dt => rw [hd6]
  rw [hd7] at hout
  have hmain : out = (agg.map (scaleIf c)).filter (pipePred raw c) := by
    rw [← hout, e5, e4, e3, e2, e1]
    by_cases hcr : c.fCr = ""
    · rw [if_pos hcr]
      have hscale : agg.map (scaleIf c) = agg := by
        rw [lmap_congr (scaleIf c) (fun r => r) agg
          (fun x _ => by simp [scaleIf, hcr])]
        exact List.map_id' agg
      rw [hscale]
      simp only [lfilter_filter]
      exact lfilter_congr _ _ agg (fun x _ => by simp [pipePred, Bool.and_assoc])
    · rw [if_neg hcr]
      have hscale : agg.map (scaleIf c) = agg.map scaleCr := by
        exact lmap_congr (scaleIf c) scaleCr agg
          (fun x _ => by simp [scaleIf, hcr])
      rw [hscale]
      rw [lfilter_filter (condPred colClicks c.fClicks)
        (condPred colCtr c.fCtr) agg]
      rw [← lmap_filter scaleCr
        (fun x => condPred colClicks c.fClicks x && condPred colCtr c.fCtr x)
        (fun x => condPred colClicks c.fClicks x && condPred colCtr c.fCtr x)
        (fun x => by
          show (condPred colClicks c.fClicks (scaleCr x) &&
              condPred colCtr c.fCtr (scaleCr x)) =
            (condPred colClicks c.fClicks x && condPred colCtr c.fCtr x)
          rw [condPred_scale colClicks scaleCr_clicks,
            condPred_scale colCtr scaleCr_ctr]) agg]
      simp only [lfilter_filter]
      exact lfilter_congr _ _ (agg.map scaleCr)
        (fun x _ => by simp [pipePred, Bool.and_assoc])
  exact hmain

/-- C7: the Step 7 filter pipeline, whenever it returns a table, returns
exactly the aggregated rows (scaled by the in-place conversion-rate
update when that condition is active) that satisfy the conjunction of
every active threshold condition, the `Sku Id` multi-select and the date
filter, in input order (a `List.filter` of the input); with no active
control it is the identity on the aggregated table. -/
theorem filter_pipeline_conjunctive (raw : List DRow) (agg : List AggRow)
    (c : Controls) (out : List AggRow) (ws : List String)
    (h : applyFilters raw agg c = Except.ok (out, ws)) :
    out = (agg.map (scaleIf c)).filter (pipePred raw c) ∧
    (noFilters c → out = agg) := by
  have hmain := applyFilters_ok raw agg c out ws h
  refine ⟨hmain, ?_⟩
  intro hno
  obtain ⟨hn1, hn2, hn3, hn4, hn5, hn6, hn7⟩ := hno
  rw [hmain]
  have hscale : agg.map (scaleIf c) = agg := by
    rw [lmap_congr (scaleIf c) (fun r => r) agg
      (fun x _ => by simp [scaleIf, hn3])]
    exact List.map_id' agg
  rw [hscale]
  apply lfilter_true
  intro x _
  simp [pipePred, hn1, hn2, hn3, hn4, hn5, hn6, hn7, condPred_blank]

/-- An arbitrary aggregated row used to witness the filter pipeline. -/
def exAggW : AggRow := aggKey [exDRowCr] "A"

theorem filter_pipeline_conjunctive_witness :
    [exAggW] = (([exAggW]).map (scaleIf exControlsNone)).filter
      (pipePred [] exControlsNone) :=
  (filter_pipeline_conjunctive [] [exAggW] exControlsNone [exAggW] [] rfl).1

/-- C5 (corrected): the conversion-rate threshold filter multiplies the
stored `Conversion Rate Direct Adjusted` column by 100 **in place**
(line 91) — not on a distinct copy — before comparing, so the pipeline's
output rows carry the scaled values; `scaleCr` changes exactly that one
field (×100), and the Step 9 display applies `round2` to whatever value
the column then holds (no further scaling).  Surviving rows' stored and
displayed values are therefore 100× larger when this filter is active
than when it is not (see the counterexample). -/
theorem cr_filter_scales_in_place :
    (∀ (raw : List DRow) (agg : List AggRow) (s : String) (op : CmpOp) (t : ℚ)
      (out : List AggRow) (ws : List String),
      parseCond s.data = some (op, t) →
      applyFilters raw agg
        { fClicks := "", fCtr := "", fCr := s, fSpend := "", fRev := "",
          selSkus := [], selDate := none } = Except.ok (out, ws) →
      out = (agg.map scaleCr).filter (fun r => evalCmp op (colCr.get r) t)) ∧
    (∀ r : AggRow, scaleCr r = { r with crda := r.crda * 100 }) ∧
    (∀ a : AggRow, (displayRow a).crdaDisp = round2 a.crda) := by
  refine ⟨?_, fun r => rfl, fun a => rfl⟩
  intro raw agg s op t out ws hp hok
  have hs : s ≠ "" := by
    intro he
    rw [he, parseCond_blank] at hp
    cases hp
  have h1 := applyFilters_ok raw agg _ out ws hok
  rw [h1]
  have hm : agg.map (scaleIf
      { fClicks := "", fCtr := "", fCr := s, fSpend := "", fRev := "",
        selSkus := [], selDate := none }) = agg.map scaleCr :=
    lmap_congr _ _ agg (fun x _ => by simp [scaleIf, hs])
  rw [hm]
  exact lfilter_congr _ _ _
    (fun x _ => by simp [pipePred, condPred_blank, condPred_of_parse_some hp])

/-- The parse of the example condition "> 10". -/
lemma exParseGt10 : parseCond ("> 10".data) = some (CmpOp.gt, ((10 : ℕ) : ℚ)) :=
  rfl

/-- The same parse stated on the underlying character list. -/
lemma exParseGt10Chars :
    parseCond ['>', ' ', '1', '0'] = some (CmpOp.gt, ((10 : ℕ) : ℚ)) := rfl

/-- The conversion-rate filter of `exControlsCr` keeps the scaled
example row. -/
lemma exApplyFiltersCr_ok :
    applyFilters [] [exAggW] exControlsCr =
      Except.ok ([scaleCr exAggW], []) := by
  have hne : ¬("> 10" : String) = "" := by decide
  have hne2 : ¬CmpOp.gt = CmpOp.eqa := by decide
  norm_num [applyFilters, condStep, applyCondition, applyCondParsed,
    exControlsCr, exParseGt10, exParseGt10Chars, evalCmp, colCr, scaleCr,
    exAggW, aggKey, grp, sumCol, exDRowCr, qRepl, List.filter, applySkuDate,
    applySku, hne, hne2]

theorem cr_filter_scales_in_place_witness :
    [scaleCr exAggW] = (([exAggW]).map scaleCr).filter
      (fun r => evalCmp CmpOp.gt (colCr.get r) ((10 : ℕ) : ℚ)) :=
  cr_filter_scales_in_place.1 [] [exAggW] "> 10" CmpOp.gt ((10 : ℕ) : ℚ)
    [scaleCr exAggW] [] exParseGt10 exApplyFiltersCr_ok

/-- C5 counterexample: on the single-row example table (stored
conversion rate `1/2`), running the pipeline with the conversion-rate
filter "> 10" active yields a surviving row whose stored value is `50`,
while running it with no filter yields the same row with stored value
`1/2`; `50 ≠ 1/2`, so the surviving rows' stored/displayed values are
not identical whether or not the filter is active, and the output rows
do not carry exactly the input field values. -/
theorem cr_filter_changes_values_counterexample :
    (applyFilters [] [exAggW] exControlsCr =
      Except.ok ([scaleCr exAggW], [])) ∧
    (applyFilters [] [exAggW] exControlsNone =
      Except.ok ([exAggW], [])) ∧
    (scaleCr exAggW).crda = 50 ∧ exAggW.crda = 1/2 ∧ ((50 : ℚ)) ≠ 1/2 := by
  refine ⟨exApplyFiltersCr_ok, rfl, ?_, ?_, by norm_num⟩
  · norm_num [scaleCr, exAggW, aggKey, grp, sumCol, exDRowCr, qRepl,
      List.filter]
  · norm_num [exAggW, aggKey, grp, sumCol, exDRowCr, qRepl, List.filter]

/-! ### ADDSPEND derivation (Step 3) -/

/-- The per-row `ADDSPEND` value of the Step 3 lambda when the `ROI`
column exists: `TotalRevenue/ROI` when `ROI` is non-null and non-zero,
else `0`. -/
def specAddspend (r : RawRow) : Option ℚ :=
  match r.roi with
  | some v => if v ≠ 0 then odiv r.revenue (some v) else some 0
  | none => some 0

lemma step3Row_roi (r : RawRow) :
    step3Row true true r = Except.ok { r with addspend := specAddspend r } := by
  unfold step3Row specAddspend
  cases r.roi with
  | none => rfl
  | some v => by_cases hv : v = 0 <;> simp [hv]

lemma exceptMap_ok {α β : Type} (f : α → Except String β) (g : α → β)
    (hf : ∀ a, f a = Except.ok (g a)) :
    ∀ l : List α, exceptMap f l = Except.ok (l.map g) := by
  intro l
  induction l with
  | nil => rfl
  | cons a as ih => simp [exceptMap, hf a, ih]

/-- A raw row with a non-null, non-zero `ROI` value. -/
def exRowRoi : RawRow :=
  { sku := "A", views := some 1, clicks := some 1, direct := some 1,
    indirect := some 0, revenue := some 100, addspend := none,
    roi := some 4, date := none }

/-- C8 (corrected): when the `ADDSPEND` column is missing and the `ROI`
column exists, every row's `ADDSPEND` is `TotalRevenue/ROI` when `ROI`
is non-null and non-zero and `0` otherwise; but when the `ROI` column is
absent as well (and the file has at least one row), `row["ROI"]` raises
`KeyError` and the upload aborts — `ADDSPEND` does **not** default
to 0. -/
theorem addspend_derivation_requires_roi_column :
    (∀ rows : List RawRow,
      step3 false true true rows =
        Except.ok (rows.map (fun r => { r with addspend := specAddspend r }))) ∧
    (∀ rows : List RawRow, rows ≠ [] →
      exceptOk (step3 false false true rows) = false) := by
  constructor
  · intro rows
    have h0 : step3 false true true rows =
        exceptMap (step3Row true true) rows := rfl
    rw [h0]
    exact exceptMap_ok _ _ step3Row_roi rows
  · intro rows hne
    cases rows with
    | nil => exact absurd rfl hne
    | cons r rs =>
      have h0 : step3 false false true (r :: rs) =
          exceptMap (step3Row false true) (r :: rs) := rfl
      rw [h0]
      have hr : step3Row false true r = Except.error "KeyError: ROI" := rfl
      simp [exceptMap, hr, exceptOk]

theorem addspend_derivation_requires_roi_column_witness :
    (step3 false true true [exRowRoi] =
      Except.ok [{ exRowRoi with addspend := specAddspend exRowRoi }]) ∧
    exceptOk (step3 false false true [exRowRoi]) = false :=
  ⟨addspend_derivation_requires_roi_column.1 [exRowRoi],
   addspend_derivation_requires_roi_column.2 [exRowRoi] (by simp)⟩

/-- C8 counterexample: with both `ADDSPEND` and `ROI` columns absent and
one row present, Step 3 raises `KeyError: ROI` instead of producing the
row with `ADDSPEND = 0` that the claim requires. -/
theorem addspend_missing_roi_counterexample :
    step3 false false true [exRowRoi] = Except.error "KeyError: ROI" ∧
    step3 false false true [exRowRoi] ≠
      Except.ok [{ exRowRoi with addspend := some 0 }] := by
  refine ⟨rfl, ?_⟩
  intro h
  rw [show step3 false false true [exRowRoi] =
    Except.error "KeyError: ROI" from rfl] at h
  exact Except.noConfusion h

/-! ### Top-level error handling -/

lemma pipelineAgg_error_full (inp : Input) (c : Controls) {e : String}
    (h : pipelineAgg inp = Except.error e) :
    fullPipeline inp c = Except.error e := by
  unfold fullPipeline
  rw [h]

lemma exceptOk_false_error {α : Type} {x : Except String α}
    (h : exceptOk x = false) : ∃ e, x = Except.error e := by
  cases x with
  | ok a => cases h
  | error e => exact ⟨e, rfl⟩

lemma dashboard_error (inp : Input) (c : Controls)
    (h : exceptOk (fullPipeline inp c) = false) :
    isErrorOnly (dashboard inp c) = true := by
  unfold dashboard
  obtain ⟨e, he⟩ := exceptOk_false_error h
  rw [he]
  rfl

lemma pipelineAgg_missing_column (inp : Input)
    (h : inp.hasSku = false ∨ inp.hasViews = false ∨ inp.hasClicks = false ∨
      inp.hasDirect = false ∨ inp.hasIndirect = false ∨
      inp.hasRevenue = false) :
    exceptOk (pipelineAgg inp) = false := by
  unfold pipelineAgg
  split
  · rfl
  next heqr =>
    split
    · rfl
    next rows3 heq3 =>
      split
      · rfl
      next drows heq4 =>
        split
        · rfl
        next agg heq5 =>
          exfalso
          unfold step4 at heq4
          unfold step5 at heq5
          rcases h with hf | hf | hf | hf | hf | hf <;>
            simp [hf] at heq4 heq5

/-- C9: for every upload in which the file is unreadable, a required
column (`Sku Id`, `Views`, `Clicks`, `Direct Units Sold`,
`Indirect Units Sold`, `Total Revenue (Rs.)`) is missing, or any step of
parsing/aggregation/filtering raises, the top-level handler renders the
single error message and nothing else: the dashboard result is
`errorOnly`, which carries no KPI, table or chart. -/
theorem ingestion_failures_render_single_error (inp : Input) (c : Controls)
    (h : inp.fileReadable = false ∨ inp.hasSku = false ∨
      inp.hasViews = false ∨ inp.hasClicks = false ∨ inp.hasDirect = false ∨
      inp.hasIndirect = false ∨ inp.hasRevenue = false ∨
      exceptOk (fullPipeline inp c) = false) :
    isErrorOnly (dashboard inp c) = true := by
  apply dashboard_error
  have hcol : (inp.hasSku = false ∨ inp.hasViews = false ∨
      inp.hasClicks = false ∨ inp.hasDirect = false ∨
      inp.hasIndirect = false ∨ inp.hasRevenue = false) →
      exceptOk (fullPipeline inp c) = false := by
    intro hh
    obtain ⟨e, he⟩ := exceptOk_false_error (pipelineAgg_missing_column inp hh)
    rw [pipelineAgg_error_full inp c he]
    rfl
  rcases h with hf | hf | hf | hf | hf | hf | hf | hlast
  · have hp : pipelineAgg inp = Except.error "unreadable file" := by
      unfold pipelineAgg readStep
      rw [hf]
      rfl
    rw [pipelineAgg_error_full inp c hp]
    rfl
  · exact hcol (Or.inl hf)
  · exact hcol (Or.inr (Or.inl hf))
  · exact hcol (Or.inr (Or.inr (Or.inl hf)))
  · exact hcol (Or.inr (Or.inr (Or.inr (Or.inl hf))))
  · exact hcol (Or.inr (Or.inr (Or.inr (Or.inr (Or.inl hf)))))
  · exact hcol (Or.inr (Or.inr (Or.inr (Or.inr (Or.inr hf)))))
  · exact hlast

theorem ingestion_failures_render_single_error_witness :
    isErrorOnly (dashboard exInputNoViews exControlsNone) = true :=
  ingestion_failures_render_single_error exInputNoViews exControlsNone
    (Or.inr (Or.inr (Or.inl rfl)))

end CampaignDash
